import Mathlib

/-!
Verification development for the cv_creator workflow engine
(src/cv_creator.py and src/gemini_cli.py).

The Python code is shallowly embedded: JSON/Python values become the
inductive type Json, the global mutable dict of variables becomes an
association-list Store passed explicitly, fallible code returns
Except, and the external HTTP / generative-API transports become
function parameters returning Except (an exception from the transport
is the error case).  Literal brace and quote characters inside string
literals are written with hexadecimal escapes.
-/

/-- A JSON / dynamic Python value, as produced by yaml or json parsing
and stored in the engine's variable store.  Python None is Json.null.
(Floating point numbers are outside the modelled fragment; none of the
program's data shapes under verification involve them.) -/
inductive Json where
  | null
  | bool (b : Bool)
  | num (n : Int)
  | str (s : String)
  | arr (xs : List Json)
  | obj (kvs : List (String × Json))

/-- The variable store (the module-level dict named variables in
cv_creator.py).  Insertion conses a binding in front; lookup takes the
first binding, so a later insert shadows an earlier one, matching the
overwrite semantics of a Python dict assignment. -/
abbrev Store := List (String × Json)

def Store.insert (st : Store) (k : String) (v : Json) : Store :=
  (k, v) :: st

def Store.lookup (st : Store) (k : String) : Option Json :=
  (List.find? (fun kv => kv.1 == k) st).map (fun kv => kv.2)

def Store.containsKey (st : Store) (k : String) : Bool :=
  (st.lookup k).isSome

/-- Python truthiness of a JSON value: None, False, 0, empty string,
empty list and empty dict are falsy. -/
def truthy : Json → Bool
  | .null => false
  | .bool b => b
  | .num n => n != 0
  | .str s => s != ""
  | .arr xs => !xs.isEmpty
  | .obj kvs => !kvs.isEmpty

/-- Key membership test on a parsed JSON object (Python: k in d). -/
def dictHasKey (kvs : List (String × Json)) (k : String) : Bool :=
  kvs.any (fun kv => kv.1 == k)

/-- Lookup on a parsed JSON object (Python: d.get(k)).  The last
binding wins, matching dict construction where a later duplicate key
overwrites an earlier one. -/
def dictGet (kvs : List (String × Json)) (k : String) : Option Json :=
  (List.find? (fun kv => kv.1 == k) kvs.reverse).map (fun kv => kv.2)

/-- Lookup with default (Python: d.get(k, dflt)). -/
def dictGetD (kvs : List (String × Json)) (k : String) (dflt : Json) : Json :=
  (dictGet kvs k).getD dflt

/-- Python repr of a value, fuel-bounded on nesting depth (values
nested deeper than the supplied fuel are outside the modelled
fragment; every value the claims touch is shallow).  String repr is
modelled in its common single-quote form without escaping. -/
def pyReprF : Nat → Json → String
  | _, .null => "None"
  | _, .bool true => "True"
  | _, .bool false => "False"
  | _, .num n => toString n
  | _, .str s => "\x27" ++ s ++ "\x27"
  | 0, .arr _ => ""
  | fuel+1, .arr xs =>
    "[" ++ String.intercalate ", " (xs.map (pyReprF fuel)) ++ "]"
  | 0, .obj _ => ""
  | fuel+1, .obj kvs =>
    "\x7b" ++
      String.intercalate ", "
        (kvs.map (fun kv => "\x27" ++ kv.1 ++ "\x27: " ++ pyReprF fuel kv.2)) ++
      "\x7d"

/-- Python str() of a value: identity on strings, repr-style rendering
otherwise (str of a dict or list is its repr). -/
def pyStr : Json → String
  | .str s => s
  | j => pyReprF 64 j

/-- Python: s.startswith(pre). -/
def pyStartsWith (s pre : String) : Bool :=
  pre.toList.isPrefixOf s.toList

/-- Substring test (Python: pat in s, for strings). -/
def containsSubL (s pat : List Char) : Bool :=
  if pat.isPrefixOf s then true
  else
    match s with
    | [] => false
    | _ :: rest => containsSubL rest pat

def containsSub (s pat : String) : Bool :=
  containsSubL s.toList pat.toList

/-- One left-to-right non-overlapping replacement pass over a
character list, with fuel (the length of the subject suffices).  This
is Python str.replace restricted to non-empty patterns; render_prompt
only ever builds patterns of the form twobraces-name-twobraces, which
are never empty. -/
def replaceFuel : Nat → List Char → List Char → List Char → List Char
  | _, s, [], _ => s
  | 0, s, _, _ => s
  | fuel+1, s, p :: ps, rep =>
    match s with
    | [] => []
    | c :: rest =>
      if (p :: ps).isPrefixOf (c :: rest) then
        rep ++ replaceFuel fuel (rest.drop ps.length) (p :: ps) rep
      else
        c :: replaceFuel fuel rest (p :: ps) rep

/-- Python: s.replace(pat, rep), for non-empty pat. -/
def pyReplace (s pat rep : String) : String :=
  String.mk (replaceFuel s.toList.length s.toList pat.toList rep.toList)

/-- cv_creator.render_prompt: for k, v in context.items():
prompt = prompt.replace("\x7b\x7b" + k + "\x7d\x7d", str(v)).
The context is an insertion-ordered association list, matching Python
dict iteration order. -/
def render_prompt (prompt : String) (context : List (String × Json)) : String :=
  context.foldl
    (fun acc kv => pyReplace acc ("\x7b\x7b" ++ kv.1 ++ "\x7d\x7d") (pyStr kv.2))
    prompt

/-- One workflow step as seen by validate_config.  The step and type
fields model step.get, with none for a missing key (or Python None);
the dependency and variable fields model the well-typed case in which
the isinstance list checks of the source succeed. -/
structure CStep where
  step : Option String
  type : Option String
  dependencies : List String
  vars : List String

/-- The recognized step types (cv_creator.validate_config). -/
def recognized_types : List String :=
  ["llm_task", "download_document", "gather_inputs", "json_iterator", "write_file"]

/-- The per-step variables loop of validate_config, verbatim:
for out_var in variables: if out_var in variables: return False.
The membership test is against the very list being iterated (the local
name variables was rebound to the step's list), so it returns false
for every step that declares at least one variable. -/
def stepVariablesOk (vars : List String) : Bool :=
  vars.all (fun out_var => !(vars.contains out_var))

/-- The step loop of validate_config: name present, non-empty and
unique; type recognized; every dependency among the names of earlier
steps; then the (shadowed) variables check. -/
def validate_steps : List CStep → List String → List String → Bool
  | [], _, _ => true
  | s :: rest, step_names, prev_steps =>
    match s.step with
    | none => false
    | some name =>
      if name == "" || step_names.contains name then false
      else
        match s.type with
        | none => false
        | some t =>
          if !(recognized_types.contains t) then false
          else if !(s.dependencies.all (fun d => prev_steps.contains d)) then false
          else if !(stepVariablesOk s.vars) then false
          else validate_steps rest (name :: step_names) (name :: prev_steps)

/-- cv_creator.validate_config on the workflow list.  The checks that
the config is a dict and that its workflow key holds a list collapse
in the typed embedding; the non-emptiness check remains. -/
def validate_config (workflow : List CStep) : Bool :=
  if workflow.isEmpty then false
  else validate_steps workflow [] []

/-- Boolean no-duplicates test on a list of strings. -/
def bNodup : List String → Bool
  | [] => true
  | x :: xs => !(xs.contains x) && bNodup xs

/-- Modelled from the spec (section 4.1), for comparison with
validate_config: a workflow is spec-valid when it is non-empty, step
names are present and unique, types are recognized, dependencies name
earlier steps, and declared variables are unique per step and globally
across the workflow. -/
def specValidSteps : List CStep → List String → List String → List String → Bool
  | [], _, _, _ => true
  | s :: rest, names, prev, allVars =>
    match s.step, s.type with
    | some name, some t =>
      name != "" && !(names.contains name) &&
      recognized_types.contains t &&
      s.dependencies.all (fun d => prev.contains d) &&
      bNodup s.vars &&
      s.vars.all (fun v => !(allVars.contains v)) &&
      specValidSteps rest (name :: names) (name :: prev) (s.vars ++ allVars)
    | _, _ => false

def specValidWorkflow (workflow : List CStep) : Bool :=
  !workflow.isEmpty && specValidSteps workflow [] [] []

/-- Drop leading JSON whitespace. -/
def skipWs (cs : List Char) : List Char :=
  cs.dropWhile (fun c => c == ' ' || c == '\n' || c == '\t' || c == '\r')

/-- Parse the remainder of a JSON string literal (the opening quote
already consumed), decoding the common escapes. -/
def parseStrChars : List Char → Option (List Char × List Char)
  | [] => none
  | '"' :: rest => some ([], rest)
  | '\\' :: e :: rest =>
    match parseStrChars rest with
    | none => none
    | some (s, rem) =>
      match e with
      | '"' => some ('"' :: s, rem)
      | '\\' => some ('\\' :: s, rem)
      | '/' => some ('/' :: s, rem)
      | 'n' => some ('\n' :: s, rem)
      | 't' => some ('\t' :: s, rem)
      | 'r' => some ('\r' :: s, rem)
      | 'b' => some ('\x08' :: s, rem)
      | 'f' => some ('\x0c' :: s, rem)
      | _ => none
  | c :: rest =>
    match parseStrChars rest with
    | none => none
    | some (s, rem) => some (c :: s, rem)

/-- Parse a run of decimal digits into a natural number. -/
def parseDigits (cs : List Char) : Option (Nat × List Char) :=
  let ds := cs.takeWhile (fun c => c.isDigit)
  if ds.isEmpty then none
  else some (ds.foldl (fun a c => a * 10 + (c.toNat - 48)) 0, cs.drop ds.length)

/-- Parse a JSON integer (optionally signed; the float fragment of
JSON is outside the modelled fragment). -/
def parseIntPart (cs : List Char) : Option (Int × List Char) :=
  match cs with
  | '-' :: rest =>
    match parseDigits rest with
    | some (n, rem) => some (-(n : Int), rem)
    | none => none
  | _ =>
    match parseDigits cs with
    | some (n, rem) => some ((n : Int), rem)
    | none => none

/-- Parse a comma-separated run of JSON values terminated by a closing
bracket, given a parser pv for one value.  Fuel bounds the number of
elements. -/
def parseItems (pv : List Char → Option (Json × List Char)) :
    Nat → List Char → Option (List Json × List Char)
  | 0, _ => none
  | fuel+1, cs =>
    match pv cs with
    | none => none
    | some (j, rest) =>
      match skipWs rest with
      | ',' :: rest2 =>
        match parseItems pv fuel rest2 with
        | some (js, rest3) => some (j :: js, rest3)
        | none => none
      | ']' :: rest2 => some ([j], rest2)
      | _ => none

/-- Parse a comma-separated run of JSON object members terminated by a
closing brace, given a parser pv for one value. -/
def parseMembers (pv : List Char → Option (Json × List Char)) :
    Nat → List Char → Option (List (String × Json) × List Char)
  | 0, _ => none
  | fuel+1, cs =>
    match skipWs cs with
    | '"' :: rest =>
      match parseStrChars rest with
      | none => none
      | some (k, rest2) =>
        match skipWs rest2 with
        | ':' :: rest3 =>
          match pv rest3 with
          | none => none
          | some (v, rest4) =>
            match skipWs rest4 with
            | ',' :: rest5 =>
              match parseMembers pv fuel rest5 with
              | some (kvs, rest6) => some ((String.mk k, v) :: kvs, rest6)
              | none => none
            | '\x7d' :: rest5 => some ([(String.mk k, v)], rest5)
            | _ => none
        | _ => none
    | _ => none

/-- Parse one JSON value; fuel bounds the nesting depth (the input
length suffices). -/
def parseJ : Nat → List Char → Option (Json × List Char)
  | 0, _ => none
  | fuel+1, cs =>
    match skipWs cs with
    | 'n' :: 'u' :: 'l' :: 'l' :: rest => some (.null, rest)
    | 't' :: 'r' :: 'u' :: 'e' :: rest => some (.bool true, rest)
    | 'f' :: 'a' :: 'l' :: 's' :: 'e' :: rest => some (.bool false, rest)
    | '"' :: rest =>
      match parseStrChars rest with
      | some (s, rem) => some (.str (String.mk s), rem)
      | none => none
    | '[' :: rest =>
      match skipWs rest with
      | ']' :: rest2 => some (.arr [], rest2)
      | _ =>
        match parseItems (parseJ fuel) (rest.length + 1) rest with
        | some (js, rest2) => some (.arr js, rest2)
        | none => none
    | '\x7b' :: rest =>
      match skipWs rest with
      | '\x7d' :: rest2 => some (.obj [], rest2)
      | _ =>
        match parseMembers (parseJ fuel) (rest.length + 1) rest with
        | some (kvs, rest2) => some (.obj kvs, rest2)
        | none => none
    | other =>
      match parseIntPart other with
      | some (n, rem) => some (.num n, rem)
      | none => none

/-- Python json.loads on a string: one JSON value followed only by
whitespace, else failure (none models the raised ValueError). -/
def jloads (s : String) : Option Json :=
  match parseJ (s.toList.length + 1) s.toList with
  | some (j, rest) => if (skipWs rest).isEmpty then some j else none
  | none => none

/-- Python: "text" in x, for the first element of the parts list in
llm_task (membership in a dict tests keys, in a string tests
substrings, in a list tests elements; other operands raise
TypeError). -/
def pyInText : Json → Except String Bool
  | .obj kvs => .ok (dictHasKey kvs "text")
  | .str s => .ok (containsSub s "text")
  | .arr xs => .ok (xs.any (fun x => match x with | .str t => t == "text" | _ => false))
  | _ => .error "TypeError: argument of type is not iterable"

/-- Python: x["text"] on the first element of the parts list
(subscripting a non-dict with a string key raises TypeError). -/
def pySubscriptText : Json → Except String Json
  | .obj kvs =>
    match dictGet kvs "text" with
    | some v => .ok v
    | none => .error "KeyError: text"
  | _ => .error "TypeError: indices"

/-- The candidates tier of llm_task response extraction (lines
207-216 of cv_creator.py): on the JSON-parsed response, follow
candidates[0].content.parts[0].text guarded by the same truthiness and
isinstance checks as the source; ok none when the path does not
resolve, error when the source would raise (candidates[0] without a
get method, or parts[0] rejecting the membership or subscript). -/
def extractTier1 (response_json : Option Json) : Except String (Option Json) :=
  match response_json with
  | some (.obj kvs) =>
    match dictGet kvs "candidates" with
    | some c =>
      if truthy c then
        match c with
        | .arr cs =>
          match cs.head? with
          | some c0 =>
            match c0 with
            | .obj c0kvs =>
              match dictGet c0kvs "content" with
              | some content =>
                if truthy content then
                  match content with
                  | .obj ckvs =>
                    match dictGet ckvs "parts" with
                    | some parts =>
                      if truthy parts then
                        match parts with
                        | .arr (p0 :: _) =>
                          match pyInText p0 with
                          | .error e => .error e
                          | .ok true =>
                            match pySubscriptText p0 with
                            | .error e => .error e
                            | .ok v => .ok (some v)
                          | .ok false => .ok none
                        | _ => .ok none
                      else .ok none
                    | none => .ok none
                  | _ => .ok none
                else .ok none
              | none => .ok none
            | _ => .error "AttributeError: get"
          | none => .ok none
        | _ => .ok none
      else .ok none
    | none => .ok none
  | _ => .ok none

/-- llm_task response extraction (lines 197-225 of cv_creator.py).
A string response is first json.loads-parsed (parse failure leaves
response_json as Python None); the candidates tier inspects the parsed
value; the fallback tiers inspect the RAW response only; failing all,
the result is str(response).  A tier-one result of JSON null is
indistinguishable in Python from the path not resolving (both leave
text_value as None), so it falls through to the fallback. -/
def extract_text (response : Json) : Except String Json :=
  let response_json : Option Json :=
    match response with
    | .str s => jloads s
    | j => some j
  match extractTier1 response_json with
  | .error e => .error e
  | .ok t1 =>
    let text_value : Option Json :=
      match t1 with
      | some .null => none
      | t => t
    match text_value with
    | some t => .ok t
    | none =>
      match response with
      | .obj kvs =>
        match dictGet kvs "parts" with
        | some (.arr ps) =>
          match ps with
          | [] => .ok (.str "")
          | p0 :: _ =>
            match p0 with
            | .obj pkvs => .ok (dictGetD pkvs "text" (.str ""))
            | _ => .error "AttributeError: get"
        | _ =>
          if dictHasKey kvs "text" then .ok (dictGetD kvs "text" (.str ""))
          else .ok (.str (pyStr response))
      | _ => .ok (.str (pyStr response))

/-- The result dict of gemini_cli.send_gemini_request restricted to
the fields cv_creator reads.  The response field holds the HTTP body
text on success and Python None when the transport raised. -/
structure GeminiResult where
  status_code : Option Nat
  response : Json
  errors : List String

/-- gemini_cli.send_gemini_request with the transport abstracted as a
function from endpoint and rendered prompt to either a status/body
pair or a raised exception: the call is wrapped in try/except, and an
exception is converted into a result dict with response None and the
exception text appended to errors - it is NOT re-raised.  File
attachment handling and the api-key query-string munging do not affect
these fields and are outside the modelled fragment (cv_creator always
passes an empty file list). -/
def send_gemini_request (post : String → String → Except String (Nat × String))
    (endpoint prompt : String) : GeminiResult :=
  match post endpoint prompt with
  | .ok r => { status_code := some r.1, response := .str r.2, errors := [] }
  | .error e => { status_code := none, response := .null, errors := [e] }

/-- The llm-relevant fields of an llm_task step dict.  endpoint and
model show step.get(..., defaulting to the empty string); none in
output_variable models a missing output_variable key. -/
structure LLMStep where
  prompt_variables : List String
  prompt : String
  output_variable : Option String
  endpoint : String
  model : String

/-- cv_creator.llm_task: require every prompt variable to be present,
render the prompt over the context built from the store, require a
non-empty endpoint and model, send the request, extract the text from
the response and store it under the output variable (default
llm_response). -/
def llm_task (post : String → String → Except String (Nat × String))
    (step : LLMStep) (st : Store) : Except String Store :=
  if !(step.prompt_variables.all (fun v => st.containsKey v)) then
    .error "LLM task requires variables"
  else
    let context := step.prompt_variables.map (fun v => (v, (st.lookup v).getD (.str "")))
    let rendered := render_prompt step.prompt context
    let output_var := step.output_variable.getD "llm_response"
    if step.endpoint == "" then .error "LLM task must specify an endpoint in llm.endpoint"
    else if step.model == "" then .error "LLM task must specify the model in llm.model"
    else
      let api_result := send_gemini_request post step.endpoint rendered
      match extract_text api_result.response with
      | .error e => .error e
      | .ok t => .ok (st.insert output_var t)

/-- cv_creator.download_document with the HTTP fetch abstracted as a
function from url to either a status/body pair or a raised exception;
an exception from requests.get is NOT caught here and aborts the step.
Reads jd_link from the store (default empty string), requires an http
prefix and a 200 status, and stores the body under jd_html. -/
def download_document (get : String → Except String (Nat × String))
    (st : Store) : Except String Store :=
  match (st.lookup "jd_link").getD (.str "") with
  | .str link =>
    if !(pyStartsWith link "http") then
      .error "Invalid URL for download_document"
    else
      match get link with
      | .error e => .error e
      | .ok r =>
        if r.1 != 200 then .error "Failed to download document"
        else .ok (st.insert "jd_html" (.str r.2))
  | _ => .error "AttributeError: startswith"

/-- One entry of the actions list of a json_iterator step: its type
tag plus the llm_task fields the nested call reads. -/
structure ItAction where
  type : Option String
  task : LLMStep

/-- The fields of a json_iterator step dict.  none in list_variable
models the missing-key default (the source default is the empty list,
which is likewise never a key of the variables dict). -/
structure ItStep where
  list_variable : Option String
  actions : List ItAction
  output_variable : Option String

/-- The inner item loop of json_iterator for one llm_task action: bind
current_item, run llm_task, and append the value of the action's
output variable (default item_output, with the empty string when
absent) to the accumulated results. -/
def runItems (post : String → String → Except String (Nat × String))
    (action : LLMStep) : List Json → Store → List Json →
    Except String (Store × List Json)
  | [], st, results => .ok (st, results)
  | item :: rest, st, results =>
    match llm_task post action (st.insert "current_item" item) with
    | .error e => .error e
    | .ok st2 =>
      let item_output_var := action.output_variable.getD "item_output"
      runItems post action rest st2
        (results ++ [(st2.lookup item_output_var).getD (.str "")])

/-- The outer action loop of json_iterator: an llm_task action runs
the item loop over the whole array, any other action type raises. -/
def runActions (post : String → String → Except String (Nat × String))
    (items : List Json) : List ItAction → Store → List Json →
    Except String (Store × List Json)
  | [], st, results => .ok (st, results)
  | a :: rest, st, results =>
    if a.type == some "llm_task" then
      match runItems post a.task items st results with
      | .error e => .error e
      | .ok r => runActions post items rest r.1 r.2
    else .error "Unsupported action type in json_iterator"

/-- Python: sep.join(xs) over the collected results, which raises
TypeError unless every element is a string. -/
def joinSep (sep : String) : List String → String
  | [] => ""
  | [x] => x
  | x :: rest => x ++ sep ++ joinSep sep rest

def pyJoin (sep : String) (xs : List Json) : Except String String :=
  if xs.all (fun x => match x with | .str _ => true | _ => false) then
    .ok (joinSep sep (xs.map pyStr))
  else .error "TypeError: join"

/-- cv_creator.json_iterator: require the list variable to be a key of
the store holding a string that json.loads-parses to an array (the
non-array and parse-failure cases both surface as the wrapped
ValueError), run the action loop, and store the double-newline join of
the collected results under the output variable (default
iterator_output). -/
def json_iterator (post : String → String → Except String (Nat × String))
    (step : ItStep) (st : Store) : Except String Store :=
  match step.list_variable with
  | none => .error "Input variable for json_iterator not found in variables"
  | some v =>
    if !(st.containsKey v) then
      .error "Input variable for json_iterator not found in variables"
    else
      match st.lookup v with
      | some (.str s) =>
        match jloads s with
        | some (.arr items) =>
          match runActions post items step.actions st [] with
          | .error e => .error e
          | .ok r =>
            match pyJoin "\n\n" r.2 with
            | .error e => .error e
            | .ok joined =>
              .ok (r.1.insert (step.output_variable.getD "iterator_output") (.str joined))
        | _ => .error "Failed to parse JSON array from variable"
      | _ => .error "Failed to parse JSON array from variable"

/-- The fields of a write_file step dict. -/
structure WFStep where
  to_write_variables : List String
  output_file : Option String

/-- The body of the write loop of write_file: concatenate each
variable's value followed by one blank line; a non-string value raises
TypeError on the string concatenation. -/
def writeLoop (st : Store) : List String → Except String String
  | [] => .ok ""
  | v :: rest =>
    match st.lookup v with
    | some (.str s) =>
      match writeLoop st rest with
      | .ok t => .ok (s ++ "\n\n" ++ t)
      | .error e => .error e
    | _ => .error "TypeError: write"

/-- cv_creator.write_file: fail on the first required variable that is
absent or None; resolve the output path from the step with the
command-line default as fallback, failing when falsy; return the path
and the full new contents of the file (the file is opened with mode w,
so these contents fully replace whatever was there). -/
def write_file (step : WFStep) (argsOutput : Option String) (st : Store) :
    Except String (String × String) :=
  match step.to_write_variables.find?
      (fun v => match st.lookup v with
        | none => true
        | some .null => true
        | some _ => false) with
  | some _ => .error "Required variable for write_file step is not set in variables"
  | none =>
    match (match step.output_file with | some p => some p | none => argsOutput) with
    | none => .error "Output file path not specified in write_file step or args"
    | some p =>
      if p == "" then .error "Output file path not specified in write_file step or args"
      else
        match writeLoop st step.to_write_variables with
        | .ok contents => .ok (p, contents)
        | .error e => .error e

/-- The scheduling view of one workflow step: its name and its
dependency list (main, lines 315-329).  Executor effects on the
variable store do not feed back into which steps become runnable, so
the dispatch order is fully determined by these two fields; an
executor exception aborts the whole loop, which only cuts runs short. -/
structure SStep where
  name : String
  deps : List String

/-- The body of one pass of the execution loop, for one step: skip it
when already completed or when some dependency is not yet completed,
otherwise dispatch it and append it to the completed list. -/
def passStep (ex : List String) (s : SStep) : List String :=
  if ex.contains s.name then ex
  else if s.deps.all (fun d => ex.contains d) then ex ++ [s.name]
  else ex

/-- One full pass of the execution loop (the for loop over steps in
main): each not-yet-completed step whose dependencies are all
completed is dispatched and appended to the completed list, in list
order; completions become visible to later steps of the same pass. -/
def passOnce (steps : List SStep) (executed : List String) : List String :=
  steps.foldl passStep executed

/-- The still-pending step names reported by the deadlock error
(main, line 311): the names of the steps not yet completed, in list
order. -/
def pendingOf (steps : List SStep) (executed : List String) : List String :=
  (steps.filter (fun s => !(executed.contains s.name))).map (fun s => s.name)

/-- The while loop of main (lines 309-346), fuel-bounded: while fewer
steps are completed than exist, run a full pass; a pass that completes
nothing raises the circular-or-missing-dependency ValueError naming
the pending steps (the initial last-count of -1 never equals a length,
so the check restructures to firing right after a no-progress pass).
none is fuel exhaustion, which the termination theorem rules out for
fuel beyond the step count. -/
def scheduleAux (steps : List SStep) : Nat → List String →
    Option (Except (List String) (List String))
  | 0, _ => none
  | fuel+1, executed =>
    if executed.length < steps.length then
      let e := passOnce steps executed
      if e.length = executed.length then some (.error (pendingOf steps e))
      else scheduleAux steps fuel e
    else some (.ok executed)

/-- The execution loop from an empty completed set, with enough fuel
for one pass per step plus the final check. -/
def schedule (steps : List SStep) : Option (Except (List String) (List String)) :=
  scheduleAux steps (steps.length + 1) []

/-- A dispatch order is topologically sound for a step list when every
dependency of a dispatched step was dispatched strictly earlier. -/
def TopoOk (steps : List SStep) (l : List String) : Prop :=
  ∀ pre n post, l = pre ++ n :: post →
    ∀ s ∈ steps, s.name = n → ∀ d ∈ s.deps, d ∈ pre

/-- The text a write_file run emits for one variable name: the stored
string (the success theorems only apply when every required value is a
string, where this is the written value). -/
def storedText (st : Store) (v : String) : String :=
  match st.lookup v with
  | some (.str s2) => s2
  | _ => ""

/-! Helper lemmas. -/

theorem store_lookup_insert (st : Store) (k k2 : String) (v : Json) :
    (st.insert k v).lookup k2 = if k = k2 then some v else st.lookup k2 := by
  simp only [Store.insert, Store.lookup, List.find?]
  by_cases h : k = k2
  · simp [h]
  · rw [show (k == k2) = false from beq_eq_false_iff_ne.mpr h]
    simp [h]

theorem containsSubL_cons_false {s pat : List Char} {c : Char}
    (h : containsSubL (c :: s) pat = false) : containsSubL s pat = false := by
  rw [containsSubL] at h
  by_cases hp : pat.isPrefixOf (c :: s)
  · simp [hp] at h
  · simpa [hp] using h

theorem replaceFuel_of_not_contains (fuel : Nat) (s pat rep : List Char)
    (h : containsSubL s pat = false) : replaceFuel fuel s pat rep = s := by
  induction fuel generalizing s with
  | zero =>
    cases pat <;> rfl
  | succ fuel ih =>
    cases pat with
    | nil => rfl
    | cons p ps =>
      cases s with
      | nil => rfl
      | cons c rest =>
        have hp : ((p :: ps).isPrefixOf (c :: rest)) = false := by
          cases hcases : (p :: ps).isPrefixOf (c :: rest)
          · rfl
          · rw [containsSubL, hcases] at h
            simp at h
        have h2 : containsSubL rest (p :: ps) = false := by
          rw [containsSubL, hp] at h
          simpa using h
        rw [replaceFuel, hp]
        simp [ih rest h2]

theorem pyReplace_of_not_contains (s pat rep : String)
    (h : containsSub s pat = false) : pyReplace s pat rep = s := by
  unfold pyReplace
  rw [replaceFuel_of_not_contains _ _ _ _ h]
  rfl

theorem render_prompt_of_no_placeholder (tpl : String) (ctx : List (String × Json))
    (h : ∀ kv ∈ ctx, containsSub tpl ("\x7b\x7b" ++ kv.1 ++ "\x7d\x7d") = false) :
    render_prompt tpl ctx = tpl := by
  induction ctx with
  | nil => rfl
  | cons kv rest ih =>
    unfold render_prompt at *
    simp only [List.foldl_cons]
    rw [pyReplace_of_not_contains _ _ _ (h kv (by simp))]
    exact ih (fun kv2 h2 => h kv2 (by simp [h2]))

theorem llm_task_frame (post : String → String → Except String (Nat × String))
    (step : LLMStep) (st st2 : Store) (h : llm_task post step st = .ok st2) :
    ∃ t, st2 = st.insert (step.output_variable.getD "llm_response") t := by
  unfold llm_task at h
  split at h
  · exact absurd h (by simp)
  · split at h
    · exact absurd h (by simp)
    · split at h
      · exact absurd h (by simp)
      · simp only [] at h
        split at h
        · exact absurd h (by simp)
        · rename_i t ht
          exact ⟨t, by injection h with h2; exact h2.symm⟩

/-! Claim theorems. -/

/-- C1: the claim says validate_config accepts every configuration
whose steps have unique names, recognized types, dependencies naming
earlier steps, and declared variables unique per step and globally.
The code disagrees with its own docstring: the local name that held
the global variable set is rebound to the current step's variables
list, so the per-variable membership test checks the list against
itself and rejects every step that declares any variable.  The
workflow below is spec-valid and matches the docstring's criteria,
yet validate_config returns false. -/
theorem c1_validator_rejects_valid_config :
    specValidWorkflow [⟨some "s1", some "llm_task", [], ["v1"]⟩] = true ∧
    validate_config [⟨some "s1", some "llm_task", [], ["v1"]⟩] = false :=
  ⟨rfl, rfl⟩

/-- C4 counterexample: a transport failure inside the generative call
is NOT fatal.  send_gemini_request catches the exception and returns a
result whose response field is None; llm_task then proceeds, and
str(None) lands under the output variable.  Concretely, with a
transport that always raises, llm_task returns successfully and the
store gains out = "None". -/
theorem c4_transport_failure_not_fatal :
    llm_task (fun _ _ => .error "ConnectionError")
        ⟨[], "p", some "out", "ep", "m"⟩ [] = .ok [("out", .str "None")] ∧
    Store.lookup [("out", Json.str "None")] "out" = some (.str "None") :=
  ⟨rfl, rfl⟩

/-- C4 amended: a transport failure during download_document (an
uncaught exception from the HTTP get) is fatal and aborts the step; a
transport failure during the generative call of llm_task is swallowed
by send_gemini_request, and llm_task completes, writing the string
"None" under its output variable. -/
theorem c4_amended (get : String → Except String (Nat × String))
    (post : String → String → Except String (Nat × String))
    (st st2 : Store) (link e e2 : String) (step : LLMStep) :
    (Store.lookup st "jd_link" = some (.str link) →
      pyStartsWith link "http" = true →
      get link = .error e →
      download_document get st = .error e) ∧
    ((∀ ep pr, post ep pr = .error e2) →
      step.prompt_variables.all (fun v => st2.containsKey v) = true →
      (step.endpoint == "") = false →
      (step.model == "") = false →
      llm_task post step st2 =
        .ok (st2.insert (step.output_variable.getD "llm_response") (.str "None"))) := by
  constructor
  · intro hlink hhttp hget
    unfold download_document
    rw [hlink]
    simp [hhttp, hget]
  · intro hpost hvars hep hm
    unfold llm_task
    rw [hvars, hep, hm]
    simp [send_gemini_request, hpost]
    rfl

/-- C4 amended witness at concrete inputs: a download whose transport
raises aborts with that error, and an llm_task whose transport raises
completes with "None" stored. -/
theorem c4_amended_witness :
    download_document (fun _ => .error "boom") [("jd_link", .str "http://x")] =
      .error "boom" ∧
    llm_task (fun _ _ => .error "down") ⟨[], "q", some "res", "ep", "m"⟩ [] =
      .ok [("res", .str "None")] :=
  ⟨(c4_amended (fun _ => .error "boom") (fun _ _ => .error "down")
      [("jd_link", .str "http://x")] [] "http://x" "boom" "down"
      ⟨[], "q", some "res", "ep", "m"⟩).1 rfl rfl rfl,
   (c4_amended (fun _ => .error "boom") (fun _ _ => .error "down")
      [("jd_link", .str "http://x")] [] "http://x" "boom" "down"
      ⟨[], "q", some "res", "ep", "m"⟩).2 (fun _ _ => rfl) rfl rfl rfl⟩

/-- C5 counterexample: the claim says the two-tier extraction applies
regardless of whether the response arrives as a dict or as a
JSON-encoded string, so that a response that is the string encoding of
a dict with a top-level text field would yield that field.  In the
code only the candidates tier looks at the JSON-parsed value; the
fallback tiers inspect the raw response, and a raw string falls
through to str(response), which is the string itself - not "Y". -/
theorem c5_string_response_not_two_tier :
    extract_text (.str "\x7b\"text\": \"Y\"\x7d") =
      .ok (.str "\x7b\"text\": \"Y\"\x7d") ∧
    ("\x7b\"text\": \"Y\"\x7d" : String) ≠ "Y" :=
  ⟨rfl, by decide⟩

/-- C5 amended: the candidates path is resolved on the JSON-parsed
response (so it fires whether the response arrives as a dict or as a
JSON-encoded string), while the parts/text fallback tiers are resolved
on the raw response only; a raw string whose parsed form lacks the
candidates path therefore stringifies to itself.  The three
dict-shaped examples of the claim hold as stated. -/
theorem c5_amended :
    extract_text (.obj [("candidates",
        .arr [.obj [("content", .obj [("parts", .arr [.obj [("text", .str "X")]])])]])]) =
      .ok (.str "X") ∧
    extract_text
        (.str "\x7b\"candidates\":[\x7b\"content\":\x7b\"parts\":[\x7b\"text\":\"X\"\x7d]\x7d\x7d]\x7d") =
      .ok (.str "X") ∧
    extract_text (.obj [("text", .str "Y")]) = .ok (.str "Y") ∧
    extract_text (.obj [("foo", .num 1)]) = .ok (.str "\x7b\x27foo\x27: 1\x7d") ∧
    extract_text (.str "\x7b\"text\": \"Y\"\x7d") = .ok (.str "\x7b\"text\": \"Y\"\x7d") :=
  ⟨rfl, rfl, rfl, rfl, rfl⟩

/-- C6 counterexample: the claim reads render_prompt as a one-shot
substitution - each template occurrence of a key placeholder becomes
that key's stringified value, and nothing else changes.  Replacement
is in fact sequential in context order, so a value inserted for an
earlier key is re-scanned by a later key: with context a  = twobraces
b twobraces, b = X, the template Hello-a renders to "Hello X", not to
the claimed "Hello " followed by the literal b placeholder. -/
theorem c6_not_one_shot_substitution :
    render_prompt "Hello \x7b\x7ba\x7d\x7d"
        [("a", .str "\x7b\x7bb\x7d\x7d"), ("b", .str "X")] = "Hello X" ∧
    ("Hello X" : String) ≠ "Hello \x7b\x7bb\x7d\x7d" :=
  ⟨rfl, by decide⟩

/-- C6 amended: render_prompt folds one replace per context entry, in
context order, each applied to the previous result - so values
inserted by earlier entries are subject to later entries'
replacements.  The claim's own example renders Hello World; the
cascade example shows the sequential behaviour; and when no key's
placeholder occurs in the template at all, the template is returned
unchanged (unmatched placeholders in particular stay literal). -/
theorem c6_amended :
    render_prompt "Hello \x7b\x7bname\x7d\x7d" [("name", .str "World")] = "Hello World" ∧
    render_prompt "Hello \x7b\x7ba\x7d\x7d"
        [("a", .str "\x7b\x7bb\x7d\x7d"), ("b", .str "X")] = "Hello X" ∧
    (∀ (tpl : String) (ctx : List (String × Json)),
      (∀ kv ∈ ctx, containsSub tpl ("\x7b\x7b" ++ kv.1 ++ "\x7d\x7d") = false) →
      render_prompt tpl ctx = tpl) :=
  ⟨rfl, rfl, render_prompt_of_no_placeholder⟩

/-- C6 amended witness: a template whose only placeholder names no
context key is returned unchanged. -/
theorem c6_amended_witness :
    render_prompt "Hi \x7b\x7bzz\x7d\x7d" [("a", Json.str "Q")] = "Hi \x7b\x7bzz\x7d\x7d" :=
  c6_amended.2.2 "Hi \x7b\x7bzz\x7d\x7d" [("a", Json.str "Q")] (by decide)

/-- C7 counterexample: the claim says an inserted placeholder is never
replaced again, even one naming another context key.  When the
inserted placeholder names a key that comes later in context iteration
order, the later pass replaces it: the braces do not survive into the
output. -/
theorem c7_later_key_reinterpolated :
    render_prompt "\x7b\x7ba\x7d\x7d"
        [("a", .str "\x7b\x7bb\x7d\x7d"), ("b", .str "X")] = "X" ∧
    containsSub "X" "\x7b\x7bb\x7d\x7d" = false :=
  ⟨rfl, by decide⟩

/-- C7 amended: no re-interpolation happens within one pass or by
earlier passes - an inserted placeholder survives verbatim unless a
LATER context entry names it.  An inserted placeholder naming an
earlier key survives; a value holding its own key's placeholder is not
recursively expanded; an inserted placeholder naming no key survives. -/
theorem c7_amended :
    render_prompt "\x7b\x7ba\x7d\x7d"
        [("b", .str "X"), ("a", .str "\x7b\x7bb\x7d\x7d")] = "\x7b\x7bb\x7d\x7d" ∧
    render_prompt "\x7b\x7ba\x7d\x7d" [("a", .str "\x7b\x7ba\x7d\x7d")] = "\x7b\x7ba\x7d\x7d" ∧
    render_prompt "\x7b\x7ba\x7d\x7d" [("a", .str "\x7b\x7bzz\x7d\x7d")] = "\x7b\x7bzz\x7d\x7d" :=
  ⟨rfl, rfl, rfl⟩

theorem passStep_skip (ex : List String) (s : SStep)
    (h1 : ex.contains s.name = true) : passStep ex s = ex := by
  unfold passStep
  exact if_pos h1

theorem passStep_dispatch (ex : List String) (s : SStep)
    (h1 : ex.contains s.name = false)
    (h2 : s.deps.all (fun d => ex.contains d) = true) :
    passStep ex s = ex ++ [s.name] := by
  unfold passStep
  rw [if_neg (by rw [h1]; exact Bool.false_ne_true), if_pos h2]

theorem passStep_blocked (ex : List String) (s : SStep)
    (h1 : ex.contains s.name = false)
    (h2 : s.deps.all (fun d => ex.contains d) = false) :
    passStep ex s = ex := by
  unfold passStep
  rw [if_neg (by rw [h1]; exact Bool.false_ne_true),
      if_neg (by rw [h2]; exact Bool.false_ne_true)]

theorem passStep_append (ex : List String) (s : SStep) :
    ∃ t, passStep ex s = ex ++ t := by
  cases h1 : ex.contains s.name with
  | true => exact ⟨[], by rw [passStep_skip ex s h1, List.append_nil]⟩
  | false =>
    cases h2 : s.deps.all (fun d => ex.contains d) with
    | true => exact ⟨[s.name], passStep_dispatch ex s h1 h2⟩
    | false => exact ⟨[], by rw [passStep_blocked ex s h1 h2, List.append_nil]⟩

theorem foldl_passStep_append (l : List SStep) :
    ∀ ex, ∃ t, l.foldl passStep ex = ex ++ t := by
  induction l with
  | nil => exact fun ex => ⟨[], by simp⟩
  | cons s rest ih =>
    intro ex
    obtain ⟨t1, h1⟩ := passStep_append ex s
    obtain ⟨t2, h2⟩ := ih (passStep ex s)
    rw [h1] at h2
    refine ⟨t1 ++ t2, ?_⟩
    rw [List.foldl_cons, h1, h2, List.append_assoc]

theorem passOnce_length_le (steps : List SStep) (ex : List String) :
    ex.length ≤ (passOnce steps ex).length := by
  obtain ⟨t, h⟩ := foldl_passStep_append steps ex
  unfold passOnce
  rw [h]
  simp

theorem passOnce_eq_of_length_eq (steps : List SStep) (ex : List String)
    (h : (passOnce steps ex).length = ex.length) : passOnce steps ex = ex := by
  obtain ⟨t, h2⟩ := foldl_passStep_append steps ex
  unfold passOnce at *
  rw [h2] at h ⊢
  have ht : t = [] := by simpa using h
  simp [ht]

/-- The invariant of the completed list: no duplicates, and every
entry is the name of some step. -/
def SchedInv (steps : List SStep) (ex : List String) : Prop :=
  ex.Nodup ∧ ∀ n ∈ ex, ∃ s ∈ steps, s.name = n

theorem passStep_inv (steps : List SStep) (ex : List String) (s : SStep)
    (hs : s ∈ steps) (h : SchedInv steps ex) : SchedInv steps (passStep ex s) := by
  cases h1 : ex.contains s.name with
  | true => rw [passStep_skip ex s h1]; exact h
  | false =>
    cases h2 : s.deps.all (fun d => ex.contains d) with
    | false => rw [passStep_blocked ex s h1 h2]; exact h
    | true =>
      rw [passStep_dispatch ex s h1 h2]
      have hnm : s.name ∉ ex := by
        have h3 := h1
        simp at h3
        exact h3
      refine ⟨?_, ?_⟩
      · rw [List.nodup_append]
        exact ⟨h.1, List.nodup_singleton _,
          fun a ha hb => by simp at hb; subst hb; exact hnm ha⟩
      · intro n hn
        rw [List.mem_append] at hn
        rcases hn with hn | hn
        · exact h.2 n hn
        · simp at hn
          subst hn
          exact ⟨s, hs, rfl⟩

theorem foldl_passStep_inv (steps : List SStep) (l : List SStep)
    (hl : ∀ s ∈ l, s ∈ steps) :
    ∀ ex, SchedInv steps ex → SchedInv steps (l.foldl passStep ex) := by
  induction l with
  | nil => exact fun ex h => h
  | cons s rest ih =>
    intro ex h
    rw [List.foldl_cons]
    exact ih (fun s2 h2 => hl s2 (by simp [h2]))
      (passStep ex s) (passStep_inv steps ex s (hl s (by simp)) h)

theorem passOnce_inv (steps : List SStep) (ex : List String)
    (h : SchedInv steps ex) : SchedInv steps (passOnce steps ex) :=
  foldl_passStep_inv steps steps (fun _ hs => hs) ex h

theorem concat_decomp (l pre post : List String) (x n : String)
    (h : l ++ [x] = pre ++ n :: post) :
    (pre = l ∧ n = x ∧ post = []) ∨
    (∃ post2, post = post2 ++ [x] ∧ l = pre ++ n :: post2) := by
  rcases List.eq_nil_or_concat post with hpost | ⟨L, b, hpost⟩
  · subst hpost
    have h2 := List.append_inj' h (by simp)
    refine Or.inl ⟨h2.1.symm, ?_, rfl⟩
    have h3 := h2.2
    simp at h3
    exact h3.symm
  · rw [List.concat_eq_append] at hpost
    subst hpost
    rw [show pre ++ n :: (L ++ [b]) = (pre ++ n :: L) ++ [b] by simp] at h
    have h2 := List.append_inj' h (by simp)
    have hxb : x = b := by
      have h3 := h2.2
      simp at h3
      exact h3
    exact Or.inr ⟨L, by rw [hxb], h2.1⟩

theorem passStep_topo (steps : List SStep) (ex : List String) (s : SStep)
    (hnodup : (steps.map SStep.name).Nodup) (hs : s ∈ steps)
    (h : TopoOk steps ex) : TopoOk steps (passStep ex s) := by
  cases h1 : ex.contains s.name with
  | true => rw [passStep_skip ex s h1]; exact h
  | false =>
    cases h2 : s.deps.all (fun d => ex.contains d) with
    | false => rw [passStep_blocked ex s h1 h2]; exact h
    | true =>
      rw [passStep_dispatch ex s h1 h2]
      intro pre n post hdec s2 hs2 hname d hd
      rcases concat_decomp ex pre post s.name n hdec with
        ⟨hpre, hn, _⟩ | ⟨post2, _, hex⟩
      · have hs2s : s2 = s := by
          refine List.inj_on_of_nodup_map hnodup hs2 hs ?_
          show s2.name = s.name
          rw [hname, hn]
        subst hs2s
        subst hpre
        have h3 := List.all_eq_true.mp h2 d hd
        simpa using h3
      · exact h pre n post2 hex s2 hs2 hname d hd

theorem foldl_passStep_topo (steps : List SStep)
    (hnodup : (steps.map SStep.name).Nodup) (l : List SStep)
    (hl : ∀ s ∈ l, s ∈ steps) :
    ∀ ex, TopoOk steps ex → TopoOk steps (l.foldl passStep ex) := by
  induction l with
  | nil => exact fun ex h => h
  | cons s rest ih =>
    intro ex h
    rw [List.foldl_cons]
    exact ih (fun s2 h2 => hl s2 (by simp [h2]))
      (passStep ex s) (passStep_topo steps ex s hnodup (hl s (by simp)) h)

theorem passOnce_topo (steps : List SStep)
    (hnodup : (steps.map SStep.name).Nodup) (ex : List String)
    (h : TopoOk steps ex) : TopoOk steps (passOnce steps ex) :=
  foldl_passStep_topo steps hnodup steps (fun _ hs => hs) ex h

theorem scheduleAux_isSome (steps : List SStep) :
    ∀ fuel ex, steps.length - ex.length < fuel →
    (scheduleAux steps fuel ex).isSome := by
  intro fuel
  induction fuel with
  | zero => intro ex h; omega
  | succ fuel ih =>
    intro ex h
    rw [scheduleAux]
    by_cases hlt : ex.length < steps.length
    · rw [if_pos hlt]
      simp only []
      by_cases heq : (passOnce steps ex).length = ex.length
      · rw [if_pos heq]
        simp
      · rw [if_neg heq]
        have hge := passOnce_length_le steps ex
        exact ih (passOnce steps ex) (by omega)
    · rw [if_neg hlt]
      simp

theorem scheduleAux_ok (steps : List SStep) :
    ∀ fuel ex l, SchedInv steps ex →
    scheduleAux steps fuel ex = some (.ok l) →
    SchedInv steps l ∧ steps.length ≤ l.length := by
  intro fuel
  induction fuel with
  | zero => intro ex l _ h; simp [scheduleAux] at h
  | succ fuel ih =>
    intro ex l hinv h
    rw [scheduleAux] at h
    by_cases hlt : ex.length < steps.length
    · rw [if_pos hlt] at h
      simp only [] at h
      by_cases heq : (passOnce steps ex).length = ex.length
      · rw [if_pos heq] at h
        simp at h
      · rw [if_neg heq] at h
        exact ih (passOnce steps ex) l (passOnce_inv steps ex hinv) h
    · rw [if_neg hlt] at h
      simp at h
      subst h
      exact ⟨hinv, by omega⟩

theorem scheduleAux_error (steps : List SStep) :
    ∀ fuel ex p, scheduleAux steps fuel ex = some (.error p) →
    ∃ ex2, passOnce steps ex2 = ex2 ∧ ex2.length < steps.length ∧
      p = pendingOf steps ex2 := by
  intro fuel
  induction fuel with
  | zero => intro ex p h; simp [scheduleAux] at h
  | succ fuel ih =>
    intro ex p h
    rw [scheduleAux] at h
    by_cases hlt : ex.length < steps.length
    · rw [if_pos hlt] at h
      simp only [] at h
      by_cases heq : (passOnce steps ex).length = ex.length
      · rw [if_pos heq] at h
        simp at h
        have hfix := passOnce_eq_of_length_eq steps ex heq
        exact ⟨ex, hfix, hlt, by rw [← h, hfix]⟩
      · rw [if_neg heq] at h
        exact ih (passOnce steps ex) p h
    · rw [if_neg hlt] at h
      simp at h

theorem scheduleAux_topo (steps : List SStep)
    (hnodup : (steps.map SStep.name).Nodup) :
    ∀ fuel ex l, TopoOk steps ex →
    scheduleAux steps fuel ex = some (.ok l) → TopoOk steps l := by
  intro fuel
  induction fuel with
  | zero => intro ex l _ h; simp [scheduleAux] at h
  | succ fuel ih =>
    intro ex l htopo h
    rw [scheduleAux] at h
    by_cases hlt : ex.length < steps.length
    · rw [if_pos hlt] at h
      simp only [] at h
      by_cases heq : (passOnce steps ex).length = ex.length
      · rw [if_pos heq] at h
        simp at h
      · rw [if_neg heq] at h
        exact ih (passOnce steps ex) l (passOnce_topo steps hnodup ex htopo) h
    · rw [if_neg hlt] at h
      simp at h
      subst h
      exact htopo

theorem sched_inv_length_le (steps : List SStep) (l : List String)
    (h : SchedInv steps l) : l.length ≤ steps.length := by
  have h1 : l.toFinset.card = l.length := List.toFinset_card_of_nodup h.1
  have h2 : l.toFinset ⊆ (steps.map SStep.name).toFinset := by
    intro n hn
    rw [List.mem_toFinset] at hn ⊢
    obtain ⟨s, hs, hname⟩ := h.2 n hn
    exact List.mem_map.mpr ⟨s, hs, hname⟩
  have h3 := Finset.card_le_card h2
  have h4 := List.toFinset_card_le (l := steps.map SStep.name)
  rw [h1] at h3
  have h5 : (steps.map SStep.name).length = steps.length := List.length_map _ _
  omega

/-- C2: for a workflow with unique step names (which validate_config
enforces before the scheduler ever runs), any successful run of the
execution loop dispatches the steps in a topological order of the
dependency graph: every dependency of a dispatched step appears
strictly earlier in the dispatch list.  Acyclicity need not be assumed
separately - a successful run certifies it. -/
theorem c2_schedule_topological (steps : List SStep) (l : List String)
    (hnodup : (steps.map SStep.name).Nodup)
    (h : schedule steps = some (.ok l)) : TopoOk steps l := by
  unfold schedule at h
  refine scheduleAux_topo steps hnodup (steps.length + 1) [] l ?_ h
  intro pre n post hdec
  exact absurd hdec (by simp)

/-- C2 witness: a two-step workflow listed in reverse dependency order
is dispatched dependency-first, and the resulting order is
topologically sound. -/
theorem c2_schedule_topological_witness :
    TopoOk [⟨"b", ["a"]⟩, ⟨"a", []⟩] ["a", "b"] :=
  c2_schedule_topological [⟨"b", ["a"]⟩, ⟨"a", []⟩] ["a", "b"] (by decide) rfl

/-- C3: for every finite step list the execution loop terminates with
a definite outcome: the fuel bound of one pass per step plus one is
never exhausted, and the outcome is either success - a duplicate-free
completion list containing exactly as many names as there are steps,
each the name of some step (so with unique names, every step completed
exactly once) - or the circular-or-missing-dependency error, whose
reported list is exactly the names of the steps still pending at a
stalled state (a fixpoint of the pass that completed fewer steps than
exist). -/
theorem c3_scheduler_terminates (steps : List SStep) :
    ∃ r, schedule steps = some r ∧
      (∀ l, r = .ok l →
        l.Nodup ∧ l.length = steps.length ∧ ∀ n ∈ l, ∃ s ∈ steps, s.name = n) ∧
      (∀ p, r = .error p →
        ∃ ex, passOnce steps ex = ex ∧ ex.length < steps.length ∧
          p = pendingOf steps ex) := by
  have hsome := scheduleAux_isSome steps (steps.length + 1) [] (by omega)
  obtain ⟨r, hr⟩ := Option.isSome_iff_exists.mp hsome
  have hr2 : schedule steps = some r := hr
  refine ⟨r, hr2, ?_, ?_⟩
  · intro l hl
    subst hl
    have hinv0 : SchedInv steps [] := ⟨List.nodup_nil, by simp⟩
    obtain ⟨hinv, hge⟩ := scheduleAux_ok steps (steps.length + 1) [] l hinv0 hr
    have hle := sched_inv_length_le steps l hinv
    exact ⟨hinv.1, by omega, hinv.2⟩
  · intro p hp
    subst hp
    exact scheduleAux_error steps (steps.length + 1) [] p hr
/-- C3 witness at the claim's own cyclic example: the loop halts on
the two-step cycle, necessarily with the error outcome naming a
stalled pending set. -/
theorem c3_scheduler_terminates_witness :
    ∃ r, schedule [⟨"a", ["b"]⟩, ⟨"b", ["a"]⟩] = some r ∧
      (∀ l, r = .ok l →
        l.Nodup ∧ l.length = 2 ∧
          ∀ n ∈ l, ∃ s ∈ [SStep.mk "a" ["b"], SStep.mk "b" ["a"]], s.name = n) ∧
      (∀ p, r = .error p →
        ∃ ex, passOnce [⟨"a", ["b"]⟩, ⟨"b", ["a"]⟩] ex = ex ∧ ex.length < 2 ∧
          p = pendingOf [⟨"a", ["b"]⟩, ⟨"b", ["a"]⟩] ex) :=
  c3_scheduler_terminates [⟨"a", ["b"]⟩, ⟨"b", ["a"]⟩]

theorem json_iterator_missing_var
    (post : String → String → Except String (Nat × String))
    (step : ItStep) (st : Store) (v : String)
    (hv : step.list_variable = some v)
    (hck : st.containsKey v = false) :
    json_iterator post step st =
      .error "Input variable for json_iterator not found in variables" := by
  unfold json_iterator
  rw [hv]
  dsimp only []
  rw [hck]
  simp

theorem json_iterator_parse_failure
    (post : String → String → Except String (Nat × String))
    (step : ItStep) (st : Store) (v s : String)
    (hv : step.list_variable = some v)
    (hlookup : st.lookup v = some (.str s))
    (hnot : ∀ xs, jloads s ≠ some (.arr xs)) :
    json_iterator post step st =
      .error "Failed to parse JSON array from variable" := by
  have hck : st.containsKey v = true := by
    unfold Store.containsKey
    rw [hlookup]
    rfl
  unfold json_iterator
  rw [hv]
  dsimp only []
  rw [hck]
  simp only [Bool.not_true, Bool.false_eq_true, if_false]
  rw [hlookup]
  dsimp only []
  cases hj : jloads s with
  | none => rfl
  | some j =>
    cases j with
    | arr xs => exact absurd hj (hnot xs)
    | null => rfl
    | bool b => rfl
    | num n => rfl
    | str s2 => rfl
    | obj kvs => rfl

theorem json_iterator_bad_action
    (post : String → String → Except String (Nat × String))
    (step : ItStep) (st : Store) (v s : String) (items : List Json) (a : ItAction)
    (hv : step.list_variable = some v)
    (hlookup : st.lookup v = some (.str s))
    (hj : jloads s = some (.arr items))
    (hact : step.actions = [a])
    (hty : a.type ≠ some "llm_task") :
    json_iterator post step st =
      .error "Unsupported action type in json_iterator" := by
  have hck : st.containsKey v = true := by
    unfold Store.containsKey
    rw [hlookup]
    rfl
  have htyb : (a.type == some "llm_task") = false := by
    rw [beq_eq_false_iff_ne]
    exact hty
  unfold json_iterator
  rw [hv]
  dsimp only []
  rw [hck]
  simp only [Bool.not_true, Bool.false_eq_true, if_false]
  rw [hlookup]
  dsimp only []
  rw [hj]
  dsimp only []
  rw [hact]
  unfold runActions
  rw [htyb]
  simp

theorem json_iterator_joins
    (post : String → String → Except String (Nat × String))
    (step : ItStep) (st st1 st2 : Store) (v s r1 r2 : String)
    (i1 i2 : Json) (a : ItAction)
    (hv : step.list_variable = some v)
    (hlookup : st.lookup v = some (.str s))
    (hj : jloads s = some (.arr [i1, i2]))
    (hact : step.actions = [a])
    (hty : a.type = some "llm_task")
    (h1 : llm_task post a.task (st.insert "current_item" i1) = .ok st1)
    (hr1 : st1.lookup (a.task.output_variable.getD "item_output") = some (.str r1))
    (h2 : llm_task post a.task (st1.insert "current_item" i2) = .ok st2)
    (hr2 : st2.lookup (a.task.output_variable.getD "item_output") = some (.str r2)) :
    json_iterator post step st =
      .ok (st2.insert (step.output_variable.getD "iterator_output")
        (.str (r1 ++ "\n\n" ++ r2))) := by
  have hck : st.containsKey v = true := by
    unfold Store.containsKey
    rw [hlookup]
    rfl
  have htyb : (a.type == some "llm_task") = true := by
    rw [hty]
    rfl
  unfold json_iterator
  rw [hv]
  dsimp only []
  rw [hck]
  simp only [Bool.not_true, Bool.false_eq_true, if_false]
  rw [hlookup]
  dsimp only []
  rw [hj]
  dsimp only []
  rw [hact]
  unfold runActions
  rw [htyb]
  simp only [if_true]
  unfold runItems
  rw [h1]
  dsimp only []
  rw [hr1]
  simp only [Option.getD_some]
  unfold runItems
  rw [h2]
  dsimp only []
  rw [hr2]
  simp only [Option.getD_some]
  unfold runItems
  unfold runActions
  unfold pyJoin
  simp [joinSep, pyStr]

/-- C8: json_iterator fails when its list variable is not a store key
or its value does not json-parse to an array; it fails on a sub-action
whose type is not llm_task; and on success with one llm_task
sub-action it runs the sub-action once per array element with
current_item bound to that element, joining the per-item values of the
sub-action's output variable with one double-newline separator in
array order (stated for the two-element arrays of the claim's
example). -/
theorem c8_json_iterator :
    (∀ post (step : ItStep) (st : Store) v,
      step.list_variable = some v → st.containsKey v = false →
      json_iterator post step st =
        .error "Input variable for json_iterator not found in variables") ∧
    (∀ post (step : ItStep) (st : Store) v s,
      step.list_variable = some v → st.lookup v = some (.str s) →
      (∀ xs, jloads s ≠ some (.arr xs)) →
      json_iterator post step st =
        .error "Failed to parse JSON array from variable") ∧
    (∀ post (step : ItStep) (st : Store) v s items a,
      step.list_variable = some v → st.lookup v = some (.str s) →
      jloads s = some (.arr items) → step.actions = [a] →
      a.type ≠ some "llm_task" →
      json_iterator post step st =
        .error "Unsupported action type in json_iterator") ∧
    (∀ post (step : ItStep) (st st1 st2 : Store) v s r1 r2 i1 i2 a,
      step.list_variable = some v → st.lookup v = some (.str s) →
      jloads s = some (.arr [i1, i2]) → step.actions = [a] →
      a.type = some "llm_task" →
      llm_task post a.task (st.insert "current_item" i1) = .ok st1 →
      st1.lookup (a.task.output_variable.getD "item_output") = some (.str r1) →
      llm_task post a.task (st1.insert "current_item" i2) = .ok st2 →
      st2.lookup (a.task.output_variable.getD "item_output") = some (.str r2) →
      json_iterator post step st =
        .ok (st2.insert (step.output_variable.getD "iterator_output")
          (.str (r1 ++ "\n\n" ++ r2)))) :=
  ⟨fun post step st v hv hck =>
      json_iterator_missing_var post step st v hv hck,
   fun post step st v s hv hl hnot =>
      json_iterator_parse_failure post step st v s hv hl hnot,
   fun post step st v s items a hv hl hj hact hty =>
      json_iterator_bad_action post step st v s items a hv hl hj hact hty,
   fun post step st st1 st2 v s r1 r2 i1 i2 a hv hl hj hact hty h1 hr1 h2 hr2 =>
      json_iterator_joins post step st st1 st2 v s r1 r2 i1 i2 a
        hv hl hj hact hty h1 hr1 h2 hr2⟩

/-- C8 witness: over the list variable holding the two-element array
of the claim's example, with one llm_task sub-action whose transport
answers with text A for every prompt, the iterator stores A, blank
line, A under its output variable. -/
theorem c8_json_iterator_witness :
    json_iterator
      (fun _ _ => .ok (200,
        "\x7b\"candidates\":[\x7b\"content\":\x7b\"parts\":[\x7b\"text\":\"A\"\x7d]\x7d\x7d]\x7d"))
      ⟨some "lv",
        [⟨some "llm_task", ⟨["current_item"], "\x7b\x7bcurrent_item\x7d\x7d",
          some "io", "ep", "m"⟩⟩],
        some "final"⟩
      [("lv", Json.str "[\"a\",\"b\"]")] =
    .ok [("final", Json.str "A\n\nA"),
         ("io", Json.str "A"), ("current_item", Json.str "b"),
         ("io", Json.str "A"), ("current_item", Json.str "a"),
         ("lv", Json.str "[\"a\",\"b\"]")] :=
  c8_json_iterator.2.2.2
    (fun _ _ => .ok (200,
      "\x7b\"candidates\":[\x7b\"content\":\x7b\"parts\":[\x7b\"text\":\"A\"\x7d]\x7d\x7d]\x7d"))
    ⟨some "lv",
      [⟨some "llm_task", ⟨["current_item"], "\x7b\x7bcurrent_item\x7d\x7d",
        some "io", "ep", "m"⟩⟩],
      some "final"⟩
    [("lv", Json.str "[\"a\",\"b\"]")]
    [("io", Json.str "A"), ("current_item", Json.str "a"),
     ("lv", Json.str "[\"a\",\"b\"]")]
    [("io", Json.str "A"), ("current_item", Json.str "b"),
     ("io", Json.str "A"), ("current_item", Json.str "a"),
     ("lv", Json.str "[\"a\",\"b\"]")]
    "lv" "[\"a\",\"b\"]" "A" "A" (Json.str "a") (Json.str "b")
    ⟨some "llm_task", ⟨["current_item"], "\x7b\x7bcurrent_item\x7d\x7d",
      some "io", "ep", "m"⟩⟩
    rfl rfl rfl rfl rfl rfl rfl rfl rfl

theorem writeLoop_join (st : Store) (vars : List String)
    (h : ∀ v ∈ vars, ∃ s2, st.lookup v = some (.str s2)) :
    writeLoop st vars =
      .ok ((vars.map (fun v => storedText st v ++ "\n\n")).foldr (· ++ ·) "") := by
  induction vars with
  | nil => rfl
  | cons v rest ih =>
    obtain ⟨s2, hs2⟩ := h v (by simp)
    unfold writeLoop
    rw [hs2]
    dsimp only []
    rw [ih (fun v2 h2 => h v2 (by simp [h2]))]
    have hst : storedText st v = s2 := by
      unfold storedText
      rw [hs2]
    rw [List.map_cons, List.foldr_cons, hst]

theorem write_file_missing
    (step : WFStep) (args : Option String) (st : Store) (v : String)
    (hv : v ∈ step.to_write_variables)
    (hbad : st.lookup v = none ∨ st.lookup v = some .null) :
    ∃ e, write_file step args st = .error e := by
  have hfind : (step.to_write_variables.find?
      (fun v => match st.lookup v with
        | none => true
        | some .null => true
        | some _ => false)).isSome := by
    rw [List.find?_isSome]
    refine ⟨v, hv, ?_⟩
    rcases hbad with hb | hb <;> rw [hb]
  obtain ⟨w, hw⟩ := Option.isSome_iff_exists.mp hfind
  refine ⟨"Required variable for write_file step is not set in variables", ?_⟩
  unfold write_file
  rw [hw]

theorem write_file_writes
    (step : WFStep) (args : Option String) (st : Store) (p : String)
    (hpath : step.output_file = some p) (hp : (p == "") = false)
    (hvals : ∀ v ∈ step.to_write_variables, ∃ s2, st.lookup v = some (.str s2)) :
    write_file step args st =
      .ok (p, (step.to_write_variables.map
        (fun v => storedText st v ++ "\n\n")).foldr (· ++ ·) "") := by
  have hfind : (step.to_write_variables.find?
      (fun v => match st.lookup v with
        | none => true
        | some .null => true
        | some _ => false)) = none := by
    rw [List.find?_eq_none]
    intro v hv
    obtain ⟨s2, hs2⟩ := hvals v hv
    rw [hs2]
    simp
  unfold write_file
  rw [hfind]
  dsimp only []
  rw [hpath]
  dsimp only []
  rw [hp]
  simp only [Bool.false_eq_true, if_false]
  rw [writeLoop_join st step.to_write_variables hvals]

/-- C9: write_file fails when any required variable is absent or
None, and otherwise resolves its destination path and emits exactly
the required variables' stored values in declared list order, each
followed by one blank line (one double newline per value), the emitted
text being the full new contents of the file. -/
theorem c9_write_file :
    (∀ (step : WFStep) (args : Option String) (st : Store) v,
      v ∈ step.to_write_variables →
      (st.lookup v = none ∨ st.lookup v = some .null) →
      ∃ e, write_file step args st = .error e) ∧
    (∀ (step : WFStep) (args : Option String) (st : Store) p,
      step.output_file = some p → (p == "") = false →
      (∀ v ∈ step.to_write_variables, ∃ s2, st.lookup v = some (.str s2)) →
      write_file step args st =
        .ok (p, (step.to_write_variables.map
          (fun v => storedText st v ++ "\n\n")).foldr (· ++ ·) "")) :=
  ⟨fun step args st v hv hbad => write_file_missing step args st v hv hbad,
   fun step args st p hpath hp hvals => write_file_writes step args st p hpath hp hvals⟩

/-- C9 witness: two string variables are written in declared order,
each followed by one blank line. -/
theorem c9_write_file_witness :
    write_file ⟨["x", "y"], some "f.md"⟩ none
      [("x", Json.str "X"), ("y", Json.str "Y")] = .ok ("f.md", "X\n\nY\n\n") :=
  c9_write_file.2 ⟨["x", "y"], some "f.md"⟩ none
    [("x", Json.str "X"), ("y", Json.str "Y")] "f.md" rfl rfl
    (by
      intro v hv
      fin_cases hv
      · exact ⟨"X", rfl⟩
      · exact ⟨"Y", rfl⟩)

/-- C10 counterexample: current_item is not transient.  After a
successful json_iterator run over the two-element array, the store
still maps current_item to the last array element (and the sub-action
per-item output variable also persists), so the new entries are not
only the step's declared output variable. -/
theorem c10_current_item_persists :
    (json_iterator
      (fun _ _ => .ok (200,
        "\x7b\"candidates\":[\x7b\"content\":\x7b\"parts\":[\x7b\"text\":\"A\"\x7d]\x7d\x7d]\x7d"))
      ⟨some "lv",
        [⟨some "llm_task", ⟨["current_item"], "\x7b\x7bcurrent_item\x7d\x7d",
          some "io", "ep", "m"⟩⟩],
        some "final"⟩
      [("lv", Json.str "[\"a\",\"b\"]")]).map
        (fun st => st.lookup "current_item") = .ok (some (.str "b")) :=
  rfl

/-- C10 amended: after a successful json_iterator run over a two
element array with one llm_task sub-action, the current_item binding
persists in the store, holding the LAST array element (as long as
neither the sub-action's llm output variable nor the step's output
variable is itself named current_item). -/
theorem c10_amended
    (post : String → String → Except String (Nat × String))
    (step : ItStep) (st st1 st2 : Store) (v s r1 r2 : String)
    (i1 i2 : Json) (a : ItAction)
    (hv : step.list_variable = some v)
    (hlookup : st.lookup v = some (.str s))
    (hj : jloads s = some (.arr [i1, i2]))
    (hact : step.actions = [a])
    (hty : a.type = some "llm_task")
    (h1 : llm_task post a.task (st.insert "current_item" i1) = .ok st1)
    (hr1 : st1.lookup (a.task.output_variable.getD "item_output") = some (.str r1))
    (h2 : llm_task post a.task (st1.insert "current_item" i2) = .ok st2)
    (hr2 : st2.lookup (a.task.output_variable.getD "item_output") = some (.str r2))
    (hne1 : a.task.output_variable.getD "llm_response" ≠ "current_item")
    (hne2 : step.output_variable.getD "iterator_output" ≠ "current_item") :
    (json_iterator post step st).map (fun st3 => st3.lookup "current_item") =
      .ok (some i2) := by
  have hrun := json_iterator_joins post step st st1 st2 v s r1 r2 i1 i2 a
    hv hlookup hj hact hty h1 hr1 h2 hr2
  rw [hrun]
  simp only [Except.map]
  obtain ⟨t, hframe⟩ := llm_task_frame post a.task (st1.insert "current_item" i2) st2 h2
  rw [store_lookup_insert, if_neg hne2, hframe, store_lookup_insert, if_neg hne1,
    store_lookup_insert, if_pos rfl]

/-- C10 amended witness: in the concrete two-element run the final
store still binds current_item to the second element. -/
theorem c10_amended_witness :
    (json_iterator
      (fun _ _ => .ok (200,
        "\x7b\"candidates\":[\x7b\"content\":\x7b\"parts\":[\x7b\"text\":\"A\"\x7d]\x7d\x7d]\x7d"))
      ⟨some "lv",
        [⟨some "llm_task", ⟨["current_item"], "\x7b\x7bcurrent_item\x7d\x7d",
          some "io2", "ep", "m"⟩⟩],
        some "final2"⟩
      [("lv", Json.str "[\"a\",\"b\"]")]).map
        (fun st3 => st3.lookup "current_item") = .ok (some (.str "b")) :=
  c10_amended
    (fun _ _ => .ok (200,
      "\x7b\"candidates\":[\x7b\"content\":\x7b\"parts\":[\x7b\"text\":\"A\"\x7d]\x7d\x7d]\x7d"))
    ⟨some "lv",
      [⟨some "llm_task", ⟨["current_item"], "\x7b\x7bcurrent_item\x7d\x7d",
        some "io2", "ep", "m"⟩⟩],
      some "final2"⟩
    [("lv", Json.str "[\"a\",\"b\"]")]
    [("io2", Json.str "A"), ("current_item", Json.str "a"),
     ("lv", Json.str "[\"a\",\"b\"]")]
    [("io2", Json.str "A"), ("current_item", Json.str "b"),
     ("io2", Json.str "A"), ("current_item", Json.str "a"),
     ("lv", Json.str "[\"a\",\"b\"]")]
    "lv" "[\"a\",\"b\"]" "A" "A" (Json.str "a") (Json.str "b")
    ⟨some "llm_task", ⟨["current_item"], "\x7b\x7bcurrent_item\x7d\x7d",
      some "io2", "ep", "m"⟩⟩
    rfl rfl rfl rfl rfl rfl rfl rfl rfl (by decide) (by decide)
